import Mathlib

/-!
Verification of the numeric core of `src/reverse-ab-calc.py`.

The program consists of two bisection solvers, `calculate_mde` and
`calculate_required_sample_size`, plus an inline two-proportion test
evaluator in `main`.  The external statistical library collaborator
(`scipy.stats.norm`) is embedded as the mathematical standard normal CDF
`normCdf` (an explicit Gaussian integral) and its inverse `normPpf`.
The `while` loops of the two solvers are embedded as fuelled recursions
(`mdeLoop`, `ssLoop`); the fuel amounts 14 and 17 are proved sufficient
below (`mdeLoop_stable`, `ssLoop_stable`), so the fuelled functions agree
with the unbounded loops of the source.
-/

open MeasureTheory Set

noncomputable section

/-- Standard normal cumulative distribution function; embeds the external
collaborator `scipy.stats.norm.cdf`. -/
def normCdf (x : ℝ) : ℝ :=
  (Real.sqrt (2 * Real.pi))⁻¹ * ∫ t in Set.Iic x, Real.exp (-(t ^ 2 / 2))

/-- Standard normal percent point function (inverse CDF); embeds the external
collaborator `scipy.stats.norm.ppf`.  No claim depends on its value, only on
its being a fixed real number for fixed argument. -/
def normPpf (p : ℝ) : ℝ := Function.invFun normCdf p

lemma gaussian_integrand_eq :
    (fun t : ℝ => Real.exp (-(t ^ 2 / 2))) = fun t : ℝ => Real.exp (-(1/2 : ℝ) * t ^ 2) := by
  funext t; ring_nf

lemma gaussian_integrable :
    Integrable (fun t : ℝ => Real.exp (-(t ^ 2 / 2))) := by
  rw [gaussian_integrand_eq]
  exact integrable_exp_neg_mul_sq (by norm_num)

lemma gaussian_integral_value :
    (∫ t : ℝ, Real.exp (-(t ^ 2 / 2))) = Real.sqrt (2 * Real.pi) := by
  rw [gaussian_integrand_eq]
  rw [integral_gaussian]
  norm_num
  ring

lemma sqrt_two_pi_pos : 0 < Real.sqrt (2 * Real.pi) :=
  Real.sqrt_pos.2 (by positivity)

lemma normCdf_nonneg (x : ℝ) : 0 ≤ normCdf x := by
  unfold normCdf
  have h1 : (0:ℝ) ≤ ∫ t in Set.Iic x, Real.exp (-(t ^ 2 / 2)) :=
    setIntegral_nonneg measurableSet_Iic (fun t _ => (Real.exp_pos _).le)
  positivity

lemma normCdf_le_one (x : ℝ) : normCdf x ≤ 1 := by
  unfold normCdf
  have h1 : (∫ t in Set.Iic x, Real.exp (-(t ^ 2 / 2))) ≤ ∫ t : ℝ, Real.exp (-(t ^ 2 / 2)) :=
    setIntegral_le_integral gaussian_integrable
      (Filter.Eventually.of_forall fun t => (Real.exp_pos _).le)
  rw [gaussian_integral_value] at h1
  calc (Real.sqrt (2 * Real.pi))⁻¹ * ∫ t in Set.Iic x, Real.exp (-(t ^ 2 / 2))
      ≤ (Real.sqrt (2 * Real.pi))⁻¹ * Real.sqrt (2 * Real.pi) := by
        exact mul_le_mul_of_nonneg_left h1 (by positivity)
    _ = 1 := inv_mul_cancel₀ sqrt_two_pi_pos.ne'

lemma normCdf_strictMono : StrictMono normCdf := by
  intro x y hxy
  unfold normCdf
  have hix : IntegrableOn (fun t : ℝ => Real.exp (-(t ^ 2 / 2))) (Set.Iic x) :=
    gaussian_integrable.integrableOn
  have hiy : IntegrableOn (fun t : ℝ => Real.exp (-(t ^ 2 / 2))) (Set.Iic y) :=
    gaussian_integrable.integrableOn
  have hsub := intervalIntegral.integral_Iic_sub_Iic hix hiy
  have hpos : 0 < ∫ t in x..y, Real.exp (-(t ^ 2 / 2)) :=
    intervalIntegral.intervalIntegral_pos_of_pos
      (gaussian_integrable.intervalIntegrable) (fun t => Real.exp_pos _) hxy
  have hlt : (∫ t in Set.Iic x, Real.exp (-(t ^ 2 / 2)))
      < ∫ t in Set.Iic y, Real.exp (-(t ^ 2 / 2)) := by linarith
  exact mul_lt_mul_of_pos_left hlt (inv_pos.2 sqrt_two_pi_pos)

lemma normCdf_monotone : Monotone normCdf := normCdf_strictMono.monotone

/-! ## Embedding of `calculate_mde` (src/reverse-ab-calc.py lines 6-37) -/

/-- Line 23 (and 56): `critical_value = stats.norm.ppf(1 - significance_level/2)`. -/
def critical_value (significance_level : ℝ) : ℝ := normPpf (1 - significance_level / 2)

/-- Line 17: the standard error inside `calculate_mde.power_analysis`:
`se = np.sqrt((p1*(1-p1) + p2*(1-p2)) / sample_size)` with `p1 = baseline_rate`
and `p2 = baseline_rate * (1 + effect_size)`. -/
def mde_se (sample_size : ℕ) (baseline_rate effect_size : ℝ) : ℝ :=
  Real.sqrt ((baseline_rate * (1 - baseline_rate) +
    (baseline_rate * (1 + effect_size)) * (1 - baseline_rate * (1 + effect_size))) / sample_size)

/-- Line 20: `z_score = abs(p2 - p1) / se` (absolute value, two-sided). -/
def mde_z_score (sample_size : ℕ) (baseline_rate effect_size : ℝ) : ℝ :=
  |baseline_rate * (1 + effect_size) - baseline_rate| / mde_se sample_size baseline_rate effect_size

/-- Line 24: `actual_power = 1 - stats.norm.cdf(critical_value - z_score)` inside
`calculate_mde.power_analysis`. -/
def mde_actual_power (sample_size : ℕ) (baseline_rate significance_level effect_size : ℝ) : ℝ :=
  1 - normCdf (critical_value significance_level -
    mde_z_score sample_size baseline_rate effect_size)

/-- Lines 11-26: `calculate_mde.power_analysis(effect_size)`, returning
`actual_power - power`. -/
def mde_power_analysis
    (sample_size : ℕ) (baseline_rate power significance_level effect_size : ℝ) : ℝ :=
  mde_actual_power sample_size baseline_rate significance_level effect_size - power

open Classical in
/-- Lines 29-35: the binary-search `while` loop of `calculate_mde`,
`while right - left > 0.0001`, as a fuelled recursion on the pair
`(left, right)`.  `test m` embeds `power_analysis(mid) < 0`. -/
def mdeLoop (test : ℝ → Prop) : ℕ → ℝ × ℝ → ℝ × ℝ
  | 0, s => s
  | k + 1, s =>
    if s.2 - s.1 ≤ 0.0001 then s
    else if test ((s.1 + s.2) / 2) then mdeLoop test k ((s.1 + s.2) / 2, s.2)
    else mdeLoop test k (s.1, (s.1 + s.2) / 2)

/-- Lines 6-37: `calculate_mde(sample_size, baseline_rate, power, significance_level)`.
The initial bracket is `left, right = 0.0001, 1.0` and the return value is the
final midpoint `(left + right) / 2`.  Fuel 14 provably exhausts the loop
(see `mdeLoop_stable`). -/
def calculate_mde (sample_size : ℕ) (baseline_rate power significance_level : ℝ) : ℝ :=
  let s := mdeLoop
    (fun e => mde_power_analysis sample_size baseline_rate power significance_level e < 0)
    14 (0.0001, 1)
  (s.1 + s.2) / 2

/-! ## Embedding of `calculate_required_sample_size` (lines 39-70) -/

/-- Line 50: the standard error inside `calculate_required_sample_size.power_analysis`
(the same formula as `mde_se`, with the loop variable `n` as sample size). -/
def ss_se (mde baseline_rate : ℝ) (n : ℕ) : ℝ :=
  Real.sqrt ((baseline_rate * (1 - baseline_rate) +
    (baseline_rate * (1 + mde)) * (1 - baseline_rate * (1 + mde))) / n)

/-- Line 53: `z_score = (p2 - p1) / se` — note: no absolute value here. -/
def ss_z_score (mde baseline_rate : ℝ) (n : ℕ) : ℝ :=
  (baseline_rate * (1 + mde) - baseline_rate) / ss_se mde baseline_rate n

/-- Line 57: `actual_power = 1 - stats.norm.cdf(critical_value - z_score)` inside
`calculate_required_sample_size.power_analysis`. -/
def ss_actual_power (mde baseline_rate significance_level : ℝ) (n : ℕ) : ℝ :=
  1 - normCdf (critical_value significance_level - ss_z_score mde baseline_rate n)

/-- Lines 44-59: `calculate_required_sample_size.power_analysis(n)`, returning
`actual_power - power`. -/
def ss_power_analysis (mde baseline_rate power significance_level : ℝ) (n : ℕ) : ℝ :=
  ss_actual_power mde baseline_rate significance_level n - power

open Classical in
/-- Lines 62-68: the integer binary-search loop of `calculate_required_sample_size`,
`while right - left > 100` with `mid = (left + right) // 2`, as a fuelled
recursion.  `test m` embeds `power_analysis(mid) < 0`. -/
def ssLoop (test : ℕ → Prop) : ℕ → ℕ × ℕ → ℕ × ℕ
  | 0, s => s
  | k + 1, s =>
    if s.2 - s.1 ≤ 100 then s
    else if test ((s.1 + s.2) / 2) then ssLoop test k ((s.1 + s.2) / 2, s.2)
    else ssLoop test k (s.1, (s.1 + s.2) / 2)

/-- Pure descent of the sample-size loop when the test fails everywhere:
only `right` moves.  Computable companion of `ssLoop`. -/
def ssDescend : ℕ → ℕ → ℕ → ℕ
  | 0, _, r => r
  | k + 1, l, r => if r - l ≤ 100 then r else ssDescend k l ((l + r) / 2)

/-- Lines 39-70: `calculate_required_sample_size(mde, baseline_rate, power,
significance_level)`.  The initial bracket is `left, right = 100, 10000000`
and line 70 returns `right` ("the conservative estimate").  Fuel 17 provably
exhausts the loop (see `ssLoop_stable`). -/
def calculate_required_sample_size (mde baseline_rate power significance_level : ℝ) : ℕ :=
  (ssLoop (fun n => ss_power_analysis mde baseline_rate power significance_level n < 0)
    17 (100, 10000000)).2

/-! ## Embedding of the test evaluation in `main` (lines 414-439) -/

/-- Lines 416-417: `cvr = conversions / traffic` (Python float division). -/
def cvr (conversions traffic : ℕ) : ℝ := (conversions : ℝ) / traffic

/-- Lines 421-422: `se = np.sqrt(cvr * (1 - cvr) / traffic)` for one group. -/
def group_se (conversions traffic : ℕ) : ℝ :=
  Real.sqrt (cvr conversions traffic * (1 - cvr conversions traffic) / traffic)

/-- Line 423: `se_diff = np.sqrt(se_control**2 + se_variant**2)`. -/
def se_diff (traffic_control conv_control traffic_variant conv_variant : ℕ) : ℝ :=
  Real.sqrt (group_se conv_control traffic_control ^ 2 +
    group_se conv_variant traffic_variant ^ 2)

open Classical in
/-- Line 426: `z_score = (cvr_variant - cvr_control) / se_diff if se_diff != 0 else 0`. -/
def z_score (traffic_control conv_control traffic_variant conv_variant : ℕ) : ℝ :=
  if se_diff traffic_control conv_control traffic_variant conv_variant ≠ 0 then
    (cvr conv_variant traffic_variant - cvr conv_control traffic_control) /
      se_diff traffic_control conv_control traffic_variant conv_variant
  else 0

/-- Line 429: two-tailed p-value `p_value = 2 * (1 - stats.norm.cdf(abs(z_score)))`. -/
def p_value_two_tailed (traffic_control conv_control traffic_variant conv_variant : ℕ) : ℝ :=
  2 * (1 - normCdf |z_score traffic_control conv_control traffic_variant conv_variant|)

end

/-! ## Generic facts about the two bisection loops -/

lemma mdeLoop_of_le (test : ℝ → Prop) (k : ℕ) (s : ℝ × ℝ) (h : s.2 - s.1 ≤ 0.0001) :
    mdeLoop test k s = s := by
  cases k with
  | zero => rfl
  | succ k => rw [mdeLoop, if_pos h]

lemma mdeLoop_add (test : ℝ → Prop) (k : ℕ) :
    ∀ (j : ℕ) (s : ℝ × ℝ), mdeLoop test (k + j) s = mdeLoop test j (mdeLoop test k s) := by
  induction k with
  | zero =>
    intro j s
    rw [Nat.zero_add]
    rfl
  | succ k ih =>
    intro j s
    by_cases h : s.2 - s.1 ≤ 0.0001
    · rw [mdeLoop_of_le test _ s h, mdeLoop_of_le test _ s h, mdeLoop_of_le test j s h]
    · have hstep : k + 1 + j = (k + j) + 1 := by omega
      rw [hstep, mdeLoop, if_neg h, mdeLoop, if_neg h]
      by_cases ht : test ((s.1 + s.2) / 2)
      · rw [if_pos ht, if_pos ht, ih]
      · rw [if_neg ht, if_neg ht, ih]

lemma mdeLoop_width (test : ℝ → Prop) :
    ∀ (k : ℕ) (s : ℝ × ℝ),
      (mdeLoop test k s).2 - (mdeLoop test k s).1 ≤ max 0.0001 ((s.2 - s.1) / 2 ^ k) := by
  intro k
  induction k with
  | zero => intro s; simp [mdeLoop]
  | succ k ih =>
    intro s
    rw [mdeLoop]
    by_cases h : s.2 - s.1 ≤ 0.0001
    · rw [if_pos h]; exact le_max_of_le_left h
    · rw [if_neg h]
      by_cases ht : test ((s.1 + s.2) / 2)
      · rw [if_pos ht]
        refine (ih _).trans (le_of_eq ?_)
        have : (s.2 - (s.1 + s.2) / 2) / 2 ^ k = (s.2 - s.1) / 2 ^ (k + 1) := by
          rw [pow_succ]; ring
        rw [this]
      · rw [if_neg ht]
        refine (ih _).trans (le_of_eq ?_)
        have : ((s.1 + s.2) / 2 - s.1) / 2 ^ k = (s.2 - s.1) / 2 ^ (k + 1) := by
          rw [pow_succ]; ring
        rw [this]

lemma mdeLoop_bracket (test : ℝ → Prop) :
    ∀ (k : ℕ) (s : ℝ × ℝ), s.1 ≤ s.2 →
      s.1 ≤ (mdeLoop test k s).1 ∧ (mdeLoop test k s).1 ≤ (mdeLoop test k s).2 ∧
        (mdeLoop test k s).2 ≤ s.2 := by
  intro k
  induction k with
  | zero => intro s hs; exact ⟨le_refl _, hs, le_refl _⟩
  | succ k ih =>
    intro s hs
    rw [mdeLoop]
    by_cases h : s.2 - s.1 ≤ 0.0001
    · rw [if_pos h]; exact ⟨le_refl _, hs, le_refl _⟩
    · rw [if_neg h]
      by_cases ht : test ((s.1 + s.2) / 2)
      · rw [if_pos ht]
        have hmid : s.1 ≤ (s.1 + s.2) / 2 := by linarith
        obtain ⟨h1, h2, h3⟩ := ih ((s.1 + s.2) / 2, s.2) (by simpa using by linarith)
        exact ⟨hmid.trans h1, h2, h3⟩
      · rw [if_neg ht]
        have hmid : (s.1 + s.2) / 2 ≤ s.2 := by linarith
        obtain ⟨h1, h2, h3⟩ := ih (s.1, (s.1 + s.2) / 2) (by simpa using by linarith)
        exact ⟨h1, h2, h3.trans hmid⟩

lemma mdeLoop_fst_allFalse (test : ℝ → Prop) (hf : ∀ x, ¬ test x) :
    ∀ (k : ℕ) (s : ℝ × ℝ), (mdeLoop test k s).1 = s.1 := by
  intro k
  induction k with
  | zero => intro s; rfl
  | succ k ih =>
    intro s
    rw [mdeLoop]
    by_cases h : s.2 - s.1 ≤ 0.0001
    · rw [if_pos h]
    · rw [if_neg h, if_neg (hf _), ih]

lemma mdeLoop_snd_allTrue (test : ℝ → Prop) (hf : ∀ x, test x) :
    ∀ (k : ℕ) (s : ℝ × ℝ), (mdeLoop test k s).2 = s.2 := by
  intro k
  induction k with
  | zero => intro s; rfl
  | succ k ih =>
    intro s
    rw [mdeLoop]
    by_cases h : s.2 - s.1 ≤ 0.0001
    · rw [if_pos h]
    · rw [if_neg h, if_pos (hf _), ih]

/-- Fourteen iterations exhaust the MDE loop: starting from the initial bracket
`(0.0001, 1.0)` the bracket width is below the tolerance after 14 steps. -/
lemma mdeLoop_width14 (test : ℝ → Prop) :
    (mdeLoop test 14 (0.0001, 1)).2 - (mdeLoop test 14 (0.0001, 1)).1 ≤ 0.0001 := by
  have h := mdeLoop_width test 14 (0.0001, 1)
  have : max 0.0001 (((0.0001, (1:ℝ)).2 - (0.0001, (1:ℝ)).1) / 2 ^ 14) = 0.0001 := by
    rw [max_eq_left]
    norm_num
  rw [this] at h
  exact h

/-- Extra fuel beyond 14 does not change the MDE loop's result: the `while`
loop of `calculate_mde` terminates within 14 iterations. -/
lemma mdeLoop_stable (test : ℝ → Prop) (j : ℕ) :
    mdeLoop test (14 + j) (0.0001, 1) = mdeLoop test 14 (0.0001, 1) := by
  rw [mdeLoop_add, mdeLoop_of_le test j _ (mdeLoop_width14 test)]

lemma ssLoop_of_le (test : ℕ → Prop) (k : ℕ) (s : ℕ × ℕ) (h : s.2 - s.1 ≤ 100) :
    ssLoop test k s = s := by
  cases k with
  | zero => rfl
  | succ k => rw [ssLoop, if_pos h]

lemma ssLoop_add (test : ℕ → Prop) (k : ℕ) :
    ∀ (j : ℕ) (s : ℕ × ℕ), ssLoop test (k + j) s = ssLoop test j (ssLoop test k s) := by
  induction k with
  | zero =>
    intro j s
    rw [Nat.zero_add]
    rfl
  | succ k ih =>
    intro j s
    by_cases h : s.2 - s.1 ≤ 100
    · rw [ssLoop_of_le test _ s h, ssLoop_of_le test _ s h, ssLoop_of_le test j s h]
    · have hstep : k + 1 + j = (k + j) + 1 := by omega
      rw [hstep, ssLoop, if_neg h, ssLoop, if_neg h]
      by_cases ht : test ((s.1 + s.2) / 2)
      · rw [if_pos ht, if_pos ht, ih]
      · rw [if_neg ht, if_neg ht, ih]

lemma ssLoop_width (test : ℕ → Prop) :
    ∀ (k : ℕ) (s : ℕ × ℕ),
      (ssLoop test k s).2 - (ssLoop test k s).1 ≤
        max 100 ((s.2 - s.1 + (2 ^ k - 1)) / 2 ^ k) := by
  intro k
  induction k with
  | zero => intro s; simp [ssLoop]
  | succ k ih =>
    intro s
    rw [ssLoop]
    by_cases h : s.2 - s.1 ≤ 100
    · rw [if_pos h]; exact le_max_of_le_left h
    · rw [if_neg h]
      have hq : 1 ≤ 2 ^ k := Nat.one_le_two_pow
      have key : ∀ w' : ℕ, 2 * w' ≤ s.2 - s.1 + 1 →
          (w' + (2 ^ k - 1)) / 2 ^ k ≤ (s.2 - s.1 + (2 ^ (k + 1) - 1)) / 2 ^ (k + 1) := by
        intro w' hw'
        have h2 : (2:ℕ) ^ (k + 1) = 2 * 2 ^ k := by rw [pow_succ]; ring
        have heq : (w' + (2 ^ k - 1)) / 2 ^ k = (2 * (w' + (2 ^ k - 1))) / (2 * 2 ^ k) :=
          (Nat.mul_div_mul_left _ _ (by norm_num)).symm
        rw [heq, h2]
        apply Nat.div_le_div_right
        have hgen : ∀ q : ℕ, 1 ≤ q → 2 * (w' + (q - 1)) ≤ s.2 - s.1 + (2 * q - 1) := by
          intro q hq1; omega
        exact hgen _ hq
      by_cases ht : test ((s.1 + s.2) / 2)
      · rw [if_pos ht]
        refine (ih _).trans (max_le_max (le_refl _) (key _ ?_))
        simp only
        omega
      · rw [if_neg ht]
        refine (ih _).trans (max_le_max (le_refl _) (key _ ?_))
        simp only
        omega

lemma ssLoop_snd_allTrue (test : ℕ → Prop) (hf : ∀ n, test n) :
    ∀ (k : ℕ) (s : ℕ × ℕ), (ssLoop test k s).2 = s.2 := by
  intro k
  induction k with
  | zero => intro s; rfl
  | succ k ih =>
    intro s
    rw [ssLoop]
    by_cases h : s.2 - s.1 ≤ 100
    · rw [if_pos h]
    · rw [if_neg h, if_pos (hf _), ih]

/-- The value at the right bracket end is invariant: `right` is only ever
replaced by a midpoint on which the test failed. -/
lemma ssLoop_snd_invariant (test : ℕ → Prop) :
    ∀ (k : ℕ) (s : ℕ × ℕ), ¬ test s.2 → ¬ test ((ssLoop test k s).2) := by
  intro k
  induction k with
  | zero => intro s hs; exact hs
  | succ k ih =>
    intro s hs
    rw [ssLoop]
    by_cases h : s.2 - s.1 ≤ 100
    · rw [if_pos h]; exact hs
    · rw [if_neg h]
      by_cases ht : test ((s.1 + s.2) / 2)
      · rw [if_pos ht]; exact ih _ hs
      · rw [if_neg ht]; exact ih _ ht

lemma ssLoop_allFalse (test : ℕ → Prop) (hf : ∀ n, ¬ test n) :
    ∀ (k : ℕ) (l r : ℕ), ssLoop test k (l, r) = (l, ssDescend k l r) := by
  intro k
  induction k with
  | zero => intro l r; rfl
  | succ k ih =>
    intro l r
    rw [ssLoop, ssDescend]
    by_cases h : r - l ≤ 100
    · rw [if_pos h, if_pos h]
    · rw [if_neg h, if_neg h, if_neg (hf _), ih]

/-- Seventeen iterations exhaust the sample-size loop from `(100, 10000000)`. -/
lemma ssLoop_width17 (test : ℕ → Prop) :
    (ssLoop test 17 (100, 10000000)).2 - (ssLoop test 17 (100, 10000000)).1 ≤ 100 := by
  have h := ssLoop_width test 17 (100, 10000000)
  have : max 100 ((((100:ℕ), (10000000:ℕ)).2 - ((100:ℕ), (10000000:ℕ)).1 + (2 ^ 17 - 1)) /
      2 ^ 17) = 100 := by norm_num
  rw [this] at h
  exact h

/-- Extra fuel beyond 17 does not change the sample-size loop's result: the
`while` loop of `calculate_required_sample_size` terminates within 17
iterations. -/
lemma ssLoop_stable (test : ℕ → Prop) (j : ℕ) :
    ssLoop test (17 + j) (100, 10000000) = ssLoop test 17 (100, 10000000) := by
  rw [ssLoop_add, ssLoop_of_le test j _ (ssLoop_width17 test)]


/-! ## Bounds on the achieved-power functions -/

lemma mde_actual_power_nonneg (n : ℕ) (p a e : ℝ) : 0 ≤ mde_actual_power n p a e := by
  have := normCdf_le_one (critical_value a - mde_z_score n p e)
  unfold mde_actual_power
  linarith

lemma mde_actual_power_le_one (n : ℕ) (p a e : ℝ) : mde_actual_power n p a e ≤ 1 := by
  have := normCdf_nonneg (critical_value a - mde_z_score n p e)
  unfold mde_actual_power
  linarith

lemma ss_actual_power_nonneg (mde p a : ℝ) (n : ℕ) : 0 ≤ ss_actual_power mde p a n := by
  have := normCdf_le_one (critical_value a - ss_z_score mde p n)
  unfold ss_actual_power
  linarith

lemma ss_actual_power_le_one (mde p a : ℝ) (n : ℕ) : ss_actual_power mde p a n ≤ 1 := by
  have := normCdf_nonneg (critical_value a - ss_z_score mde p n)
  unfold ss_actual_power
  linarith

/-- With a target power above 1, every achieved power falls short. -/
lemma mde_pa_neg_of_gt_one (n : ℕ) (p pw a : ℝ) (hpw : 1 < pw) :
    ∀ e, mde_power_analysis n p pw a e < 0 := by
  intro e
  have := mde_actual_power_le_one n p a e
  unfold mde_power_analysis
  linarith

/-- With a target power at most 0, every achieved power meets it. -/
lemma mde_pa_nonneg_of_nonpos (n : ℕ) (p pw a : ℝ) (hpw : pw ≤ 0) :
    ∀ e, ¬ (mde_power_analysis n p pw a e < 0) := by
  intro e
  have := mde_actual_power_nonneg n p a e
  unfold mde_power_analysis
  linarith

lemma ss_pa_neg_of_gt_one (mde p pw a : ℝ) (hpw : 1 < pw) :
    ∀ n, ss_power_analysis mde p pw a n < 0 := by
  intro n
  have := ss_actual_power_le_one mde p a n
  unfold ss_power_analysis
  linarith

lemma ss_pa_nonneg_of_nonpos (mde p pw a : ℝ) (hpw : pw ≤ 0) :
    ∀ n, ¬ (ss_power_analysis mde p pw a n < 0) := by
  intro n
  have := ss_actual_power_nonneg mde p a n
  unfold ss_power_analysis
  linarith

/-! ## Helper facts about the two solvers -/

/-- For every input whatsoever, `calculate_mde` returns a value in the initial
bracket `[0.0001, 1.0]`. -/
lemma calculate_mde_mem (n : ℕ) (p pw a : ℝ) :
    calculate_mde n p pw a ∈ Set.Icc (0.0001 : ℝ) 1 := by
  unfold calculate_mde
  obtain ⟨h1, h2, h3⟩ := mdeLoop_bracket
    (fun e => mde_power_analysis n p pw a e < 0) 14 (0.0001, 1) (by norm_num)
  constructor
  · simp only at h1 h2 h3 ⊢
    linarith
  · simp only at h1 h2 h3 ⊢
    linarith

/-- When the power test succeeds on the whole bracket (`power_analysis ≥ 0`
everywhere), only `right` ever moves and the returned midpoint sits within
half a tolerance of the left boundary `0.0001`. -/
lemma calculate_mde_le_of_allFalse (n : ℕ) (p pw a : ℝ)
    (h : ∀ e, ¬ (mde_power_analysis n p pw a e < 0)) :
    calculate_mde n p pw a ≤ 0.00015 := by
  unfold calculate_mde
  have hfst := mdeLoop_fst_allFalse (fun e => mde_power_analysis n p pw a e < 0) h 14 (0.0001, 1)
  have hw := mdeLoop_width14 (fun e => mde_power_analysis n p pw a e < 0)
  simp only at hfst hw ⊢
  rw [hfst] at hw ⊢
  norm_num at hfst hw ⊢
  linarith

/-- When the power test fails on the whole bracket (`power_analysis < 0`
everywhere), only `left` ever moves and the returned midpoint sits within
half a tolerance of the right boundary `1.0`. -/
lemma calculate_mde_ge_of_allTrue (n : ℕ) (p pw a : ℝ)
    (h : ∀ e, mde_power_analysis n p pw a e < 0) :
    0.99995 ≤ calculate_mde n p pw a := by
  unfold calculate_mde
  have hsnd := mdeLoop_snd_allTrue (fun e => mde_power_analysis n p pw a e < 0) h 14 (0.0001, 1)
  have hw := mdeLoop_width14 (fun e => mde_power_analysis n p pw a e < 0)
  simp only at hsnd hw ⊢
  rw [hsnd] at hw ⊢
  norm_num at hsnd hw ⊢
  linarith

/-- When the target power is unreachable everywhere, `right` never moves and
the solver returns the search ceiling itself. -/
lemma calculate_required_sample_size_of_allTrue (mde p pw a : ℝ)
    (h : ∀ m, ss_power_analysis mde p pw a m < 0) :
    calculate_required_sample_size mde p pw a = 10000000 := by
  unfold calculate_required_sample_size
  exact ssLoop_snd_allTrue (fun m => ss_power_analysis mde p pw a m < 0) h 17 (100, 10000000)

lemma ssDescend_val : ssDescend 17 100 10000000 = 176 := by norm_num [ssDescend]

/-- When the target power is already met everywhere, `left` never moves and
the solver descends to 176, within the tolerance of the floor 100. -/
lemma calculate_required_sample_size_of_allFalse (mde p pw a : ℝ)
    (h : ∀ m, ¬ (ss_power_analysis mde p pw a m < 0)) :
    calculate_required_sample_size mde p pw a = 176 := by
  unfold calculate_required_sample_size
  rw [ssLoop_allFalse (fun m => ss_power_analysis mde p pw a m < 0) h 17 100 10000000]
  exact ssDescend_val

/-! ## Helper facts about the test evaluator -/

lemma group_se_of_full (t : ℕ) (ht : 0 < t) : group_se t t = 0 := by
  unfold group_se cvr
  have hne : (t : ℝ) ≠ 0 := Nat.cast_ne_zero.2 ht.ne'
  rw [div_self hne]
  norm_num

lemma se_diff_comm (tc cc tv cv : ℕ) :
    se_diff tv cv tc cc = se_diff tc cc tv cv := by
  unfold se_diff
  rw [add_comm]

lemma z_score_swap (tc cc tv cv : ℕ) :
    z_score tv cv tc cc = -(z_score tc cc tv cv) := by
  unfold z_score
  rw [se_diff_comm]
  by_cases h : se_diff tc cc tv cv ≠ 0
  · rw [if_pos h, if_pos h]
    ring
  · rw [if_neg h, if_neg h]
    norm_num

/-! ## Claim theorems -/

/-- C1, counterexample: with target power 2 the search terminates (it always
does) and returns the ceiling 10,000,000, whose achieved power is below the
target — contradicting "it never returns a sample size whose actual achieved
power is below target". -/
theorem C1_counterexample :
    calculate_required_sample_size 0.05 0.3 2 0.05 = 10000000 ∧
      ss_actual_power 0.05 0.3 0.05 10000000 < 2 := by
  constructor
  · exact calculate_required_sample_size_of_allTrue 0.05 0.3 2 0.05
      (ss_pa_neg_of_gt_one 0.05 0.3 2 0.05 (by norm_num))
  · have := ss_actual_power_le_one 0.05 0.3 0.05 10000000
    linarith

/-- C1, amended: `calculate_required_sample_size` returns the upper bound of
the final bisection bracket, and whenever the achieved power at the search
ceiling 10,000,000 meets the target, the achieved power of the returned
sample size meets the target as well.  (When even the ceiling falls short,
the function returns the ceiling itself, whose power is below target.) -/
theorem C1_conservative_upper_bound (mde p pw a : ℝ)
    (h : pw ≤ ss_actual_power mde p a 10000000) :
    calculate_required_sample_size mde p pw a =
      (ssLoop (fun n => ss_power_analysis mde p pw a n < 0) 17 (100, 10000000)).2 ∧
      pw ≤ ss_actual_power mde p a (calculate_required_sample_size mde p pw a) := by
  refine ⟨rfl, ?_⟩
  have hr : ¬ (ss_power_analysis mde p pw a 10000000 < 0) := by
    have hE : ss_power_analysis mde p pw a 10000000 =
        ss_actual_power mde p a 10000000 - pw := rfl
    rw [hE]
    linarith
  have hinv := ssLoop_snd_invariant (fun n => ss_power_analysis mde p pw a n < 0)
    17 (100, 10000000) hr
  simp only at hinv
  push_neg at hinv
  have hE2 : ss_power_analysis mde p pw a
      ((ssLoop (fun n => ss_power_analysis mde p pw a n < 0) 17 (100, 10000000)).2) =
      ss_actual_power mde p a
        ((ssLoop (fun n => ss_power_analysis mde p pw a n < 0) 17 (100, 10000000)).2) - pw := rfl
  rw [hE2] at hinv
  unfold calculate_required_sample_size
  linarith

/-- C1, witness: with target power 0 the ceiling's power meets the target,
and so does the power of the returned sample size. -/
theorem C1_witness :
    (0 : ℝ) ≤ ss_actual_power 0.05 0.3 0.05 10000000 ∧
      (0 : ℝ) ≤ ss_actual_power 0.05 0.3 0.05
        (calculate_required_sample_size 0.05 0.3 0 0.05) :=
  ⟨ss_actual_power_nonneg 0.05 0.3 0.05 10000000,
    (C1_conservative_upper_bound 0.05 0.3 0 0.05
      (ss_actual_power_nonneg 0.05 0.3 0.05 10000000)).2⟩

/-- C2, counterexample: with baseline rate 0.9999 (spec's concrete scenario 3),
`calculate_mde` does not fail in any way: it runs the bisection and returns an
ordinary value inside the initial bracket `[0.0001, 1.0]`.  There is no
`InvalidParameter` error anywhere in the code. -/
theorem C2_counterexample :
    calculate_mde 10000 0.9999 0.8 0.05 ∈ Set.Icc (0.0001 : ℝ) 1 :=
  calculate_mde_mem 10000 0.9999 0.8 0.05

/-- C2, amended: `calculate_mde` performs no input validation and cannot fail;
called with baseline rate 0.9999 (for any sample size, target power and alpha)
it runs the bisection search and returns a value in `[0.0001, 1.0]`. -/
theorem C2_no_validation (n : ℕ) (pw a : ℝ) :
    calculate_mde n 0.9999 pw a ∈ Set.Icc (0.0001 : ℝ) 1 :=
  calculate_mde_mem n 0.9999 pw a

/-- C3, counterexample: with target power 0 the achieved power at the left
endpoint already meets the target (the whole bracket does), yet `calculate_mde`
raises no `DidNotConverge` and sets no flag: it silently returns an ordinary
midpoint value close to the left boundary. -/
theorem C3_counterexample :
    calculate_mde 10000 0.3 0 0.05 ≤ 0.00015 ∧
      0.0001 ≤ calculate_mde 10000 0.3 0 0.05 :=
  ⟨calculate_mde_le_of_allFalse 10000 0.3 0 0.05
      (mde_pa_nonneg_of_nonpos 10000 0.3 0 0.05 (le_refl 0)),
    (calculate_mde_mem 10000 0.3 0 0.05).1⟩

/-- C3, amended: `calculate_mde` performs no bracket check and signals nothing:
when achieved power meets the target on the whole bracket it silently returns a
midpoint within half a tolerance of the left boundary (result ≤ 0.00015), and
when achieved power is below target on the whole bracket it silently returns a
midpoint within half a tolerance of the right boundary (result ≥ 0.99995);
no error and no non-convergence flag exist. -/
theorem C3_silent_midpoint (n : ℕ) (p pw a : ℝ) :
    ((∀ e, ¬ (mde_power_analysis n p pw a e < 0)) → calculate_mde n p pw a ≤ 0.00015) ∧
      ((∀ e, mde_power_analysis n p pw a e < 0) → 0.99995 ≤ calculate_mde n p pw a) :=
  ⟨calculate_mde_le_of_allFalse n p pw a, calculate_mde_ge_of_allTrue n p pw a⟩

/-- C3, witness: both degenerate-bracket regimes realised at concrete inputs
(target power 0, resp. target power 2). -/
theorem C3_witness :
    calculate_mde 500 0.4 0 0.05 ≤ 0.00015 ∧ 0.99995 ≤ calculate_mde 500 0.4 2 0.05 :=
  ⟨(C3_silent_midpoint 500 0.4 0 0.05).1 (mde_pa_nonneg_of_nonpos 500 0.4 0 0.05 (le_refl 0)),
    (C3_silent_midpoint 500 0.4 2 0.05).2 (mde_pa_neg_of_gt_one 500 0.4 2 0.05 (by norm_num))⟩

/-- C4, counterexample: no `OutOfRange` error exists.  When 10,000,000 samples
still fail to reach the target (target power 3), the function returns the
ceiling 10,000,000 normally; when 100 samples already exceed the target
(target power −1), it returns 176 normally. -/
theorem C4_counterexample :
    calculate_required_sample_size 0.05 0.3 3 0.05 = 10000000 ∧
      calculate_required_sample_size 0.05 0.3 (-1) 0.05 = 176 :=
  ⟨calculate_required_sample_size_of_allTrue 0.05 0.3 3 0.05
      (ss_pa_neg_of_gt_one 0.05 0.3 3 0.05 (by norm_num)),
    calculate_required_sample_size_of_allFalse 0.05 0.3 (-1) 0.05
      (ss_pa_nonneg_of_nonpos 0.05 0.3 (-1) 0.05 (by norm_num))⟩

/-- C4, amended: `calculate_required_sample_size` never signals any error.
When the achieved power is below target on the whole search range it returns
the ceiling 10,000,000 itself as the estimate; when the achieved power meets
the target on the whole range it returns 176, within the tolerance of the
floor 100.  Both cases return normally without any `OutOfRange` error. -/
theorem C4_no_out_of_range (mde p pw a : ℝ) :
    ((∀ m, ss_power_analysis mde p pw a m < 0) →
        calculate_required_sample_size mde p pw a = 10000000) ∧
      ((∀ m, ¬ (ss_power_analysis mde p pw a m < 0)) →
        calculate_required_sample_size mde p pw a = 176) :=
  ⟨calculate_required_sample_size_of_allTrue mde p pw a,
    calculate_required_sample_size_of_allFalse mde p pw a⟩

/-- C4, witness: both regimes realised at concrete inputs. -/
theorem C4_witness :
    calculate_required_sample_size 0.1 0.2 1.5 0.025 = 10000000 ∧
      calculate_required_sample_size 0.1 0.2 (-0.5) 0.025 = 176 :=
  ⟨(C4_no_out_of_range 0.1 0.2 1.5 0.025).1
      (ss_pa_neg_of_gt_one 0.1 0.2 1.5 0.025 (by norm_num)),
    (C4_no_out_of_range 0.1 0.2 (-0.5) 0.025).2
      (ss_pa_nonneg_of_nonpos 0.1 0.2 (-0.5) 0.025 (by norm_num))⟩

/-- C6: for positive traffic in both groups, a zero standard error of the
difference yields z-score 0 rather than a division error, and in particular
with conversions equal to traffic in both groups (100% conversion) the
standard-error computation itself yields 0 without any division error. -/
theorem C6_zero_se_diff (tc cc tv cv : ℕ) (htc : 0 < tc) (htv : 0 < tv) :
    (se_diff tc cc tv cv = 0 → z_score tc cc tv cv = 0) ∧
      (cc = tc → cv = tv → se_diff tc cc tv cv = 0 ∧ z_score tc cc tv cv = 0) := by
  have hz : se_diff tc cc tv cv = 0 → z_score tc cc tv cv = 0 := by
    intro h
    unfold z_score
    rw [if_neg (by simpa using h)]
  refine ⟨hz, ?_⟩
  intro h1 h2
  have hsd : se_diff tc cc tv cv = 0 := by
    rw [h1, h2]
    unfold se_diff
    rw [group_se_of_full tc htc, group_se_of_full tv htv]
    norm_num
  exact ⟨hsd, hz hsd⟩

/-- C6, witness: two groups of 1000 visitors with 1000 conversions each. -/
theorem C6_witness :
    (0 : ℕ) < 1000 ∧ se_diff 1000 1000 1000 1000 = 0 ∧ z_score 1000 1000 1000 1000 = 0 :=
  ⟨by norm_num,
    (C6_zero_se_diff 1000 1000 1000 1000 (by norm_num) (by norm_num)).2 rfl rfl⟩

/-- C7: for positive traffic in both groups, swapping control and variant
flips the sign of the z-score and leaves the two-tailed p-value unchanged. -/
theorem C7_swap_symmetry (tc cc tv cv : ℕ) (_htc : 0 < tc) (_htv : 0 < tv) :
    z_score tv cv tc cc = -(z_score tc cc tv cv) ∧
      p_value_two_tailed tv cv tc cc = p_value_two_tailed tc cc tv cv := by
  refine ⟨z_score_swap tc cc tv cv, ?_⟩
  unfold p_value_two_tailed
  rw [z_score_swap tc cc tv cv, abs_neg]

/-- C7, witness: spec's concrete scenario 2 (1000/300 versus 1000/350). -/
theorem C7_witness :
    (0 : ℕ) < 1000 ∧ z_score 1000 350 1000 300 = -(z_score 1000 300 1000 350) ∧
      p_value_two_tailed 1000 350 1000 300 = p_value_two_tailed 1000 300 1000 350 :=
  ⟨by norm_num, C7_swap_symmetry 1000 300 1000 350 (by norm_num) (by norm_num)⟩

/-- C9: both bisection loops terminate for every test predicate within the
stated iteration budget: 14 iterations bring the MDE bracket width below
0.0001 and further fuel does not change the result; 17 iterations bring the
sample-size bracket width to at most 100 and further fuel does not change
the result. -/
theorem C9_bounded_iterations (testR : ℝ → Prop) (testN : ℕ → Prop) (j : ℕ) :
    mdeLoop testR (14 + j) (0.0001, 1) = mdeLoop testR 14 (0.0001, 1) ∧
      (mdeLoop testR 14 (0.0001, 1)).2 - (mdeLoop testR 14 (0.0001, 1)).1 ≤ 0.0001 ∧
      ssLoop testN (17 + j) (100, 10000000) = ssLoop testN 17 (100, 10000000) ∧
      (ssLoop testN 17 (100, 10000000)).2 - (ssLoop testN 17 (100, 10000000)).1 ≤ 100 :=
  ⟨mdeLoop_stable testR j, mdeLoop_width14 testR, ssLoop_stable testN j, ssLoop_width17 testN⟩

/-- C10: for every input whatsoever — any sample size, any real baseline rate,
target power and alpha — `calculate_mde` terminates without signalling any
error, its result is the midpoint of a sub-bracket of the initial interval,
and the result lies in `[0.0001, 1.0]`. -/
theorem C10_always_in_range (n : ℕ) (p pw a : ℝ) :
    calculate_mde n p pw a ∈ Set.Icc (0.0001 : ℝ) 1 ∧
      ∃ lr : ℝ × ℝ,
        mdeLoop (fun e => mde_power_analysis n p pw a e < 0) 14 (0.0001, 1) = lr ∧
        0.0001 ≤ lr.1 ∧ lr.1 ≤ lr.2 ∧ lr.2 ≤ 1 ∧
        calculate_mde n p pw a = (lr.1 + lr.2) / 2 := by
  refine ⟨calculate_mde_mem n p pw a, ?_⟩
  obtain ⟨h1, h2, h3⟩ := mdeLoop_bracket
    (fun e => mde_power_analysis n p pw a e < 0) 14 (0.0001, 1) (by norm_num)
  exact ⟨_, rfl, h1, h2, h3, rfl⟩

/-! ## Comparison helpers for quotients by square roots -/

lemma div_sqrt_le_div_sqrt (a b x y : ℝ) (ha : 0 ≤ a) (hb : 0 ≤ b)
    (hx : 0 < x) (hy : 0 < y) (h : a ^ 2 * y ≤ b ^ 2 * x) :
    a / Real.sqrt x ≤ b / Real.sqrt y := by
  rw [div_le_div_iff₀ (Real.sqrt_pos.2 hx) (Real.sqrt_pos.2 hy)]
  have h1 : a * Real.sqrt y = Real.sqrt (a ^ 2 * y) := by
    rw [Real.sqrt_mul (sq_nonneg a), Real.sqrt_sq ha]
  have h2 : b * Real.sqrt x = Real.sqrt (b ^ 2 * x) := by
    rw [Real.sqrt_mul (sq_nonneg b), Real.sqrt_sq hb]
  rw [h1, h2]
  exact Real.sqrt_le_sqrt h

lemma div_sqrt_lt_div_sqrt (a b x y : ℝ) (ha : 0 ≤ a) (hb : 0 ≤ b)
    (hx : 0 < x) (hy : 0 < y) (h : a ^ 2 * y < b ^ 2 * x) :
    a / Real.sqrt x < b / Real.sqrt y := by
  rw [div_lt_div_iff₀ (Real.sqrt_pos.2 hx) (Real.sqrt_pos.2 hy)]
  have h1 : a * Real.sqrt y = Real.sqrt (a ^ 2 * y) := by
    rw [Real.sqrt_mul (sq_nonneg a), Real.sqrt_sq ha]
  have h2 : b * Real.sqrt x = Real.sqrt (b ^ 2 * x) := by
    rw [Real.sqrt_mul (sq_nonneg b), Real.sqrt_sq hb]
  rw [h1, h2]
  exact Real.sqrt_lt_sqrt (by positivity) h

/-! ## Same-sign monotonicity of the MDE power function -/

/-- Polynomial core, nonnegative effects: for `0 ≤ e1 ≤ e2` with the larger
alternative rate still at most 1, the squared z-score numerator-denominator
cross product is ordered. -/
lemma mde_key_nonneg_effects (p e1 e2 : ℝ) (hp0 : 0 < p) (hp1 : p < 1)
    (he1 : 0 ≤ e1) (h12 : e1 ≤ e2) (hub : p * (1 + e2) ≤ 1) :
    (p * e1) ^ 2 * (p * (1 - p) + (p * (1 + e2)) * (1 - p * (1 + e2))) ≤
      (p * e2) ^ 2 * (p * (1 - p) + (p * (1 + e1)) * (1 - p * (1 + e1))) := by
  have he2 : 0 ≤ e2 := he1.trans h12
  have ht1 : 0 ≤ e1 * ((1 - p) - p * e2) := by
    apply mul_nonneg he1
    nlinarith
  have ht2 : 0 ≤ (1 - p) * e2 := mul_nonneg (by linarith) he2
  have ht3 : 0 ≤ e1 * e2 := mul_nonneg he1 he2
  have hbr : 0 ≤ (2 - 2 * p) * (e1 + e2) + (1 - 2 * p) * (e1 * e2) := by nlinarith
  have hid : (p * e2) ^ 2 * (p * (1 - p) + (p * (1 + e1)) * (1 - p * (1 + e1))) -
      (p * e1) ^ 2 * (p * (1 - p) + (p * (1 + e2)) * (1 - p * (1 + e2))) =
      p ^ 3 * ((e2 - e1) * ((2 - 2 * p) * (e1 + e2) + (1 - 2 * p) * (e1 * e2))) := by
    ring
  nlinarith [mul_nonneg (pow_nonneg hp0.le 3) (mul_nonneg (by linarith : (0:ℝ) ≤ e2 - e1) hbr)]

/-- Polynomial core, nonpositive effects: for `e2 ≤ e1 ≤ 0` with the larger
(more negative) alternative rate still positive. -/
lemma mde_key_nonpos_effects (p e1 e2 : ℝ) (hp0 : 0 < p) (hp1 : p < 1)
    (he1 : e1 ≤ 0) (h21 : e2 ≤ e1) (hlb : 0 < p * (1 + e2)) :
    (p * e1) ^ 2 * (p * (1 - p) + (p * (1 + e2)) * (1 - p * (1 + e2))) ≤
      (p * e2) ^ 2 * (p * (1 - p) + (p * (1 + e1)) * (1 - p * (1 + e1))) := by
  have he2 : e2 ≤ 0 := h21.trans he1
  have h1e2 : 0 < 1 + e2 := by
    by_contra hcon
    push_neg at hcon
    nlinarith [mul_nonneg hp0.le (by linarith : (0:ℝ) ≤ -(1 + e2))]
  have h1e1 : 0 < 1 + e1 := by linarith
  have ht1 : 0 ≤ (-e1) * (-e2) := mul_nonneg (by linarith) (by linarith)
  have ht2 : 0 ≤ (1 - p) * (-e2) * (1 + e1) :=
    mul_nonneg (mul_nonneg (by linarith) (by linarith)) h1e1.le
  have ht3 : 0 ≤ (1 - p) * (-e1) := mul_nonneg (by linarith) (by linarith)
  have hbr : (2 - 2 * p) * (e1 + e2) + (1 - 2 * p) * (e1 * e2) ≤ 0 := by nlinarith
  have hid : (p * e2) ^ 2 * (p * (1 - p) + (p * (1 + e1)) * (1 - p * (1 + e1))) -
      (p * e1) ^ 2 * (p * (1 - p) + (p * (1 + e2)) * (1 - p * (1 + e2))) =
      p ^ 3 * ((e2 - e1) * ((2 - 2 * p) * (e1 + e2) + (1 - 2 * p) * (e1 * e2))) := by
    ring
  nlinarith [mul_nonneg (pow_nonneg hp0.le 3)
    (mul_nonneg_of_nonpos_of_nonpos (by linarith : e2 - e1 ≤ 0) hbr)]

/-- Glue: the cross-product ordering transfers to the z-scores. -/
lemma mde_z_score_le (n : ℕ) (p e1 e2 : ℝ) (hn : 0 < n)
    (hA : 0 < p * (1 - p))
    (hg1 : 0 ≤ (p * (1 + e1)) * (1 - p * (1 + e1)))
    (hg2 : 0 ≤ (p * (1 + e2)) * (1 - p * (1 + e2)))
    (hkey : (p * e1) ^ 2 * (p * (1 - p) + (p * (1 + e2)) * (1 - p * (1 + e2))) ≤
      (p * e2) ^ 2 * (p * (1 - p) + (p * (1 + e1)) * (1 - p * (1 + e1)))) :
    mde_z_score n p e1 ≤ mde_z_score n p e2 := by
  have hnR : (0:ℝ) < (n : ℝ) := by exact_mod_cast hn
  unfold mde_z_score mde_se
  apply div_sqrt_le_div_sqrt _ _ _ _ (abs_nonneg _) (abs_nonneg _)
    (by positivity) (by positivity)
  have hq1 : |p * (1 + e1) - p| ^ 2 = (p * e1) ^ 2 := by
    rw [sq_abs]; ring
  have hq2 : |p * (1 + e2) - p| ^ 2 = (p * e2) ^ 2 := by
    rw [sq_abs]; ring
  rw [hq1, hq2, mul_div_assoc', mul_div_assoc']
  exact (div_le_div_iff_of_pos_right hnR).2 hkey

/-- Monotone CDF transfers z-score ordering to achieved power. -/
lemma mde_actual_power_le_of_z_le (n : ℕ) (p a e1 e2 : ℝ)
    (h : mde_z_score n p e1 ≤ mde_z_score n p e2) :
    mde_actual_power n p a e1 ≤ mde_actual_power n p a e2 := by
  unfold mde_actual_power
  have := normCdf_monotone (sub_le_sub_left h (critical_value a))
  linarith

/-- C5, counterexample: the sample-size solver's power function is not
symmetric in the sign of the rate difference: its z-score has no absolute
value, so the achieved power at effect +0.5 differs from the achieved power
at the reflected effect -0.5. -/
theorem C5_counterexample :
    ss_actual_power 0.5 0.3 0.05 100 ≠ ss_actual_power (-0.5) 0.3 0.05 100 := by
  have hz1 : 0 < ss_z_score 0.5 0.3 100 := by
    unfold ss_z_score ss_se
    apply div_pos (by norm_num)
    apply Real.sqrt_pos.2
    have hc : ((100:ℕ):ℝ) = 100 := by norm_num
    rw [hc]
    norm_num
  have hz2 : ss_z_score (-0.5) 0.3 100 < 0 := by
    unfold ss_z_score ss_se
    apply div_neg_of_neg_of_pos (by norm_num)
    apply Real.sqrt_pos.2
    have hc : ((100:ℕ):ℝ) = 100 := by norm_num
    rw [hc]
    norm_num
  have hlt : critical_value 0.05 - ss_z_score 0.5 0.3 100 <
      critical_value 0.05 - ss_z_score (-0.5) 0.3 100 := by linarith
  have := normCdf_strictMono hlt
  unfold ss_actual_power
  intro hcon
  rw [sub_right_inj] at hcon
  exact absurd hcon this.ne

/-- C5, amended: only the MDE solver's power function applies the absolute
value `z = |p2 - p1| / se`; the sample-size solver's z-score omits it, and its
power therefore depends on the sign of `p2 - p1`.  The two power functions
agree whenever baseline rate and effect are nonnegative, and the MDE z-score
is always nonnegative. -/
theorem C5_abs_only_in_mde (n : ℕ) (p a e : ℝ) (hp : 0 ≤ p) (he : 0 ≤ e) :
    mde_actual_power n p a e = ss_actual_power e p a n ∧ 0 ≤ mde_z_score n p e := by
  constructor
  · have habs : |p * (1 + e) - p| = p * (1 + e) - p := by
      apply abs_of_nonneg
      nlinarith
    unfold mde_actual_power ss_actual_power mde_z_score ss_z_score mde_se ss_se
    rw [habs]
  · unfold mde_z_score
    exact div_nonneg (abs_nonneg _) (Real.sqrt_nonneg _)

/-- C5, witness: at a concrete nonnegative baseline and effect the two power
functions agree and the MDE z-score is nonnegative. -/
theorem C5_witness :
    (0:ℝ) ≤ 0.3 ∧ (0:ℝ) ≤ 0.1 ∧
      mde_actual_power 200 0.3 0.05 0.1 = ss_actual_power 0.1 0.3 0.05 200 ∧
      0 ≤ mde_z_score 200 0.3 0.1 :=
  ⟨by norm_num, by norm_num,
    (C5_abs_only_in_mde 200 0.3 0.05 0.1 (by norm_num) (by norm_num)).1,
    (C5_abs_only_in_mde 200 0.3 0.05 0.1 (by norm_num) (by norm_num)).2⟩

/-- C8, counterexample: achieved power is not monotone in `|effect|` across
signs: at baseline 0.9 with n = 100, the effect +0.1 has strictly greater
achieved power than -0.11 although `|0.1| < |-0.11|` and both alternative
rates (0.99 and 0.801) lie in (0,1) — because the standard error treats the
two signs asymmetrically. -/
theorem C8_counterexample :
    mde_actual_power 100 0.9 0.05 (-0.11) < mde_actual_power 100 0.9 0.05 0.1 ∧
      |(0.1 : ℝ)| < |(-0.11 : ℝ)| := by
  constructor
  · have hz : mde_z_score 100 0.9 (-0.11) < mde_z_score 100 0.9 0.1 := by
      unfold mde_z_score mde_se
      have habs1 : |0.9 * (1 + (-0.11:ℝ)) - 0.9| = 0.099 := by
        rw [abs_of_nonpos (by norm_num)]
        norm_num
      have habs2 : |0.9 * (1 + (0.1:ℝ)) - 0.9| = 0.09 := by
        rw [abs_of_nonneg (by norm_num)]
        norm_num
      rw [habs1, habs2]
      have hc : ((100:ℕ):ℝ) = 100 := by norm_num
      rw [hc]
      apply div_sqrt_lt_div_sqrt _ _ _ _ (by norm_num) (by norm_num) (by norm_num)
        (by norm_num)
      norm_num
    unfold mde_actual_power
    have := normCdf_strictMono (sub_lt_sub_left hz (critical_value 0.05))
    linarith
  · rw [abs_of_nonneg (by norm_num : (0:ℝ) ≤ 0.1), abs_of_nonpos (by norm_num : (-0.11:ℝ) ≤ 0)]
    norm_num

/-- C8, amended: achieved power is monotone in the effect size among effects
of equal sign — for `0 ≤ e1 ≤ e2`, or for `e2 ≤ e1 ≤ 0`, with the baseline
rate in (0,1), both alternative rates in (0,1) and positive sample size,
`power(e1) ≤ power(e2)`.  Across opposite signs monotonicity in `|effect|`
fails (see the counterexample). -/
theorem C8_same_sign_monotone (n : ℕ) (p a e1 e2 : ℝ)
    (hn : 0 < n) (hp0 : 0 < p) (hp1 : p < 1)
    (h10 : 0 < p * (1 + e1)) (h11 : p * (1 + e1) < 1)
    (h20 : 0 < p * (1 + e2)) (h21 : p * (1 + e2) < 1) :
    ((0 ≤ e1 → e1 ≤ e2 → mde_actual_power n p a e1 ≤ mde_actual_power n p a e2) ∧
      (e2 ≤ e1 → e1 ≤ 0 → mde_actual_power n p a e1 ≤ mde_actual_power n p a e2)) := by
  have hA : 0 < p * (1 - p) := by nlinarith
  have hg1 : 0 ≤ (p * (1 + e1)) * (1 - p * (1 + e1)) := mul_nonneg h10.le (by linarith)
  have hg2 : 0 ≤ (p * (1 + e2)) * (1 - p * (1 + e2)) := mul_nonneg h20.le (by linarith)
  constructor
  · intro he1 h12
    exact mde_actual_power_le_of_z_le n p a e1 e2
      (mde_z_score_le n p e1 e2 hn hA hg1 hg2
        (mde_key_nonneg_effects p e1 e2 hp0 hp1 he1 h12 h21.le))
  · intro h21e he1
    exact mde_actual_power_le_of_z_le n p a e1 e2
      (mde_z_score_le n p e1 e2 hn hA hg1 hg2
        (mde_key_nonpos_effects p e1 e2 hp0 hp1 he1 h21e h20))

/-- C8, witness: both same-sign regimes at concrete inputs (baseline 0.3,
n = 400): effects 0.1 ≤ 0.2 and effects -0.2 ≤ -0.1 ≤ 0. -/
theorem C8_witness :
    (0:ℝ) < 0.3 ∧ (0.3:ℝ) * (1 + 0.2) < 1 ∧
      mde_actual_power 400 0.3 0.05 0.1 ≤ mde_actual_power 400 0.3 0.05 0.2 ∧
      mde_actual_power 400 0.3 0.05 (-0.1) ≤ mde_actual_power 400 0.3 0.05 (-0.2) :=
  ⟨by norm_num, by norm_num,
    (C8_same_sign_monotone 400 0.3 0.05 0.1 0.2 (by norm_num) (by norm_num) (by norm_num)
      (by norm_num) (by norm_num) (by norm_num) (by norm_num)).1 (by norm_num) (by norm_num),
    (C8_same_sign_monotone 400 0.3 0.05 (-0.1) (-0.2) (by norm_num) (by norm_num) (by norm_num)
      (by norm_num) (by norm_num) (by norm_num) (by norm_num)).2 (by norm_num) (by norm_num)⟩

/-- C9, witness: the stability and width bounds at concrete test predicates. -/
theorem C9_witness :
    mdeLoop (fun x => x < 0.5) 15 (0.0001, 1) = mdeLoop (fun x => x < 0.5) 14 (0.0001, 1) ∧
      ssLoop (fun n => n < 5000) 18 (100, 10000000) =
        ssLoop (fun n => n < 5000) 17 (100, 10000000) := by
  have h := C9_bounded_iterations (fun x => x < 0.5) (fun n => n < 5000) 1
  exact ⟨h.1, h.2.2.1⟩
